import Mathlib

/-!
Verification development for the world-orchestration engine of "the-grid".

The JavaScript source is shallowly embedded: JS numbers become exact
rationals (`ℚ`), JS strings become Lean `String`s except grid-reference
labels, which are modelled as lists of UTF-16 code units (`List ℕ`) so that
the `charCodeAt`/`fromCharCode` arithmetic of the source is kept exactly.
Euclidean distances, which the source obtains with `Math.sqrt` and then
compares against thresholds, are modelled by comparing squared distances
(both sides of every comparison in the source are non-negative, so the
squared comparison is equivalent). The SQLite tables of `WorldState`
become lists; `Math.random()` becomes an explicitly passed stream of
rationals; `Date.now()` becomes an explicitly passed timestamp.
-/

namespace TheGrid

/-- Position of a resident: the `position_x/y/z` columns of the residents
table (floats in the source, exact rationals here). -/
structure Pos where
  x : ℚ
  y : ℚ
  z : ℚ
deriving DecidableEq

/-- Row of the `residents` table, keeping the fields the verified code
reads: `id`, the soul-card display name, the position and the state. -/
structure Resident where
  id : String
  name : String
  position : Pos
  state : String
deriving DecidableEq

/-- Row of the `structures` table (`id, type, x, y, z, built_by`; the
params JSON document is opaque to every verified operation and omitted). -/
structure Structure where
  id : String
  type : String
  x : ℚ
  y : ℚ
  z : ℚ
  built_by : String
deriving DecidableEq

/-- Row of the `events` table: the type tag (the JSON `data` payload is
opaque to the verified control flow and omitted). -/
structure Event where
  type : String
deriving DecidableEq

/-- The mutable world store of `WorldState` (ActionExecutor.js, second
document): the residents, structures and events tables. -/
structure World where
  residents : List Resident
  structures : List Structure
  events : List Event
deriving DecidableEq

namespace WorldState

/-- WorldState.getResidentPosition: `SELECT position_x, position_y,
position_z FROM residents WHERE id = ?`, null when the id is unknown. -/
def getResidentPosition (w : World) (id : String) : Option Pos :=
  (w.residents.find? (fun r => r.id == id)).map (fun r => r.position)

/-- WorldState.setResidentPosition: `UPDATE residents SET position_x = ?,
position_y = ?, position_z = ? WHERE id = ?`. -/
def setResidentPosition (w : World) (id : String) (x y z : ℚ) : World :=
  { w with residents :=
      w.residents.map (fun r => if r.id == id then { r with position := ⟨x, y, z⟩ } else r) }

/-- Movement argument of WorldState.moveResident: a direction string and an
optional distance (`movement.distance` may be absent in the source). -/
structure Movement where
  direction : String
  distance : Option ℚ
deriving DecidableEq

/-- Direction table of WorldState.moveResident: `{north:{x:0,z:-1},
south:{x:0,z:1}, east:{x:1,z:0}, west:{x:-1,z:0}}`; the source falls back
to `{x:0,z:0}` (`directions[d] || {x:0,z:0}`) for any other string. -/
def dirVec (d : String) : ℚ × ℚ :=
  if d = "north" then (0, -1)
  else if d = "south" then (0, 1)
  else if d = "east" then (1, 0)
  else if d = "west" then (-1, 0)
  else (0, 0)

/-- JavaScript `movement.distance || 1`: a missing distance and the falsy
distance `0` both become `1`. -/
def distOr1 (d : Option ℚ) : ℚ :=
  match d with
  | none => 1
  | some q => if q = 0 then 1 else q

/-- WorldState.moveResident: null when the id is unknown; otherwise
displaces the stored position by the direction vector scaled by the
distance (`newX = pos.x + dir.x * distance`, z likewise, y kept) and
returns the new position. -/
def moveResident (w : World) (id : String) (mv : Movement) : Option Pos × World :=
  match getResidentPosition w id with
  | none => (none, w)
  | some p =>
    let dir := dirVec mv.direction
    let distance := distOr1 mv.distance
    let newX := p.x + dir.1 * distance
    let newZ := p.z + dir.2 * distance
    (some ⟨newX, p.y, newZ⟩, setResidentPosition w id newX p.y newZ)

/-- WorldState.addStructure: inserts a structures row and returns its id
(the source draws a uuid; it is modelled as a fresh label derived from the
table size, which no verified property depends on). -/
def addStructure (w : World) (type : String) (x y z : ℚ) (builtBy : String) :
    String × World :=
  let id := "structure-" ++ toString w.structures.length
  (id, { w with structures := w.structures ++ [⟨id, type, x, y, z, builtBy⟩] })

/-- WorldState.logEvent: appends an events row. -/
def logEvent (w : World) (type : String) : World :=
  { w with events := w.events ++ [⟨type⟩] }

end WorldState

namespace SpatialTools

/-- SpatialTools.gridSize = 5, the abstract grid cell size. -/
def gridSize : ℚ := 5

/-- JavaScript `%` on integers: the remainder takes the sign of the
dividend (unlike the Euclidean `%` of `ℤ` in Lean). -/
def jsRem (a b : ℤ) : ℤ :=
  if 0 ≤ a then a % b else -((-a) % b)

/-- Code units of the decimal numeral of a natural number, as JavaScript
template-literal interpolation prints it. -/
def natToCodes (n : ℕ) : List ℕ :=
  if n < 10 then [48 + n]
  else natToCodes (n / 10) ++ [48 + n % 10]
decreasing_by exact Nat.div_lt_self (by omega) (by omega)

/-- Code units of the decimal numeral of an integer (code 45 is the minus
sign). -/
def intToCodes (i : ℤ) : List ℕ :=
  if i < 0 then 45 :: natToCodes i.natAbs else natToCodes i.toNat

/-- Digit accumulation of JavaScript `parseInt` over a run of decimal
digit code units. -/
def parseNatCodes (l : List ℕ) : ℕ :=
  l.foldl (fun a c => a * 10 + (c - 48)) 0

/-- JavaScript `parseInt` on the canonical decimal numerals produced by
`intToCodes` (an optional leading minus sign, then digits). -/
def parseIntCodes (l : List ℕ) : ℤ :=
  match l with
  | [] => 0
  | c :: rest => if c = 45 then -(parseNatCodes rest : ℤ) else (parseNatCodes (c :: rest) : ℤ)

/-- SpatialTools.worldToGrid: `gridX = floor(x/gridSize)`, column letter
`fromCharCode(65 + ((gridX + 10) % 26))`, row number `gridZ + 10`,
concatenated into a label (modelled as the list of its code units). -/
def worldToGrid (x z : ℚ) : List ℕ :=
  let gridX := ⌊x / gridSize⌋
  let gridZ := ⌊z / gridSize⌋
  (65 + jsRem (gridX + 10) 26).toNat :: intToCodes (gridZ + 10)

/-- SpatialTools.gridToWorld: `col = charCodeAt(0) - 65`,
`row = parseInt(ref.slice(1))`, cell center
`((col - 10) * gridSize + gridSize / 2, (row - 10) * gridSize + gridSize / 2)`.
The source is undefined on an empty label (NaN); `worldToGrid` never
produces one, and the empty case is mapped to the origin cell formula. -/
def gridToWorld (ref : List ℕ) : ℚ × ℚ :=
  match ref with
  | [] => (0, 0)
  | c :: rest =>
    let col : ℤ := (c : ℤ) - 65
    let row : ℤ := parseIntCodes rest
    (((col - 10 : ℤ) : ℚ) * gridSize + gridSize / 2,
     ((row - 10 : ℤ) : ℚ) * gridSize + gridSize / 2)

/-- Squared Euclidean distance in the x-z plane. The source computes
`Math.sqrt((x1-x2)^2 + (z1-z2)^2)` and compares it against non-negative
thresholds; every such comparison is modelled on the squares. -/
def distSq (x1 z1 x2 z2 : ℚ) : ℚ :=
  (x1 - x2) ^ 2 + (z1 - z2) ^ 2

/-- SpatialTools.isSpaceClear: the candidate is rejected as soon as some
resident or some structure of the supplied lists is at Euclidean distance
`< size * gridSize` (`if (dist < minDist) return false`), so it is clear
exactly when every occupant is at squared distance at least
`(size * gridSize)^2`. -/
def isSpaceClear (x z size : ℚ) (residents : List Resident)
    (structures : List Structure) : Bool :=
  let minDist := size * gridSize
  residents.all (fun r => decide (minDist ^ 2 ≤ distSq r.position.x r.position.z x z)) &&
  structures.all (fun s => decide (minDist ^ 2 ≤ distSq s.x s.z x z))

/-- SpatialTools.getStructuresNear: `SELECT * FROM structures WHERE
(x-?)*(x-?) + (z-?)*(z-?) <= ?*?`, an inclusive circular query already
phrased on squares in the source. -/
def getStructuresNear (w : World) (x z radius : ℚ) : List Structure :=
  w.structures.filter (fun s => decide (distSq s.x s.z x z ≤ radius ^ 2))

/-- Distances tried by the spiral search of findEmptySpace: the call sites
use the default options, so the loop runs `distance = 5, 10, ..., 30`
(minDistance 5 to maxDistance 30 stepping by gridSize). -/
def spiralDistances : List ℚ :=
  (List.range 6).map (fun k => 5 + 5 * (k : ℚ))

/-- Candidate points of the spiral search. For each distance the source
tries 16 angles, placing the candidate at
`(near.x + cos(angle)*distance, near.z + sin(angle)*distance)`; cosine and
sine are transcendental, so the table of direction unit vectors is kept as
a parameter `dirs` and every verified property is proved for an arbitrary
table. The occupancy test applied to the candidates is modelled exactly. -/
def spiralCandidates (dirs : List (ℚ × ℚ)) (near : ℚ × ℚ) : List (ℚ × ℚ) :=
  spiralDistances.flatMap (fun d =>
    dirs.map (fun u => (near.1 + u.1 * d, near.2 + u.2 * d)))

/-- SpatialTools.findEmptySpace with the default options of its call site
in executeBuild: occupancy data is all residents plus the structures
within maxDistance (30) of `near`; the first clear candidate of the spiral
is returned. -/
def findEmptySpace (dirs : List (ℚ × ℚ)) (w : World) (near : ℚ × ℚ)
    (size : ℚ) : Option (ℚ × ℚ) :=
  let residents := w.residents
  let structures := getStructuresNear w near.1 near.2 30
  (spiralCandidates dirs near).find? (fun c => isSpaceClear c.1 c.2 size residents structures)

/-- Structure template: name, footprint size, effect tag (the description
string is not read by any verified operation). -/
structure Template where
  name : String
  size : ℚ
  effect : String
deriving DecidableEq

/-- SpatialTools.getStructureTemplates, looked up at one key (JS
`templates[type]`, undefined for unknown keys). -/
def getStructureTemplates (type : String) : Option Template :=
  if type = "beacon" then some ⟨"Beacon Tower", 1, "gather_point"⟩
  else if type = "wall" then some ⟨"Energy Wall", 2, "barrier"⟩
  else if type = "platform" then some ⟨"Platform", 2, "social_space"⟩
  else if type = "obelisk" then some ⟨"Data Obelisk", 1, "memory_store"⟩
  else if type = "gateway" then some ⟨"Gateway", 3, "teleport"⟩
  else if type = "arena" then some ⟨"Arena", 4, "event_space"⟩
  else none

/-- SpatialTools.validatePlacement: clear iff isSpaceClear against all
residents and the structures within `size * gridSize * 2` of the
position (the source also returns position/gridRef/reason strings; only
the valid flag steers control flow). -/
def validatePlacement (w : World) (pos : ℚ × ℚ) (size : ℚ) : Bool :=
  isSpaceClear pos.1 pos.2 size w.residents
    (getStructuresNear w pos.1 pos.2 (size * gridSize * 2))

/-- Result of SpatialTools.getPath: dominant-axis direction and rounded
straight-line distance. The `steps` field (`ceil(distance / gridSize)`) is
read by no caller in the repository and is not modelled. -/
structure PathInfo where
  direction : String
  distance : ℕ
deriving DecidableEq

/-- Math.round(Math.sqrt s) for `s ≥ 0`: the unique `n` with
`n - 1/2 ≤ sqrt s < n + 1/2` (half rounds up), computed exactly on
rationals as `(Nat.sqrt ⌊4s⌋ + 1) / 2`. -/
def roundSqrt (s : ℚ) : ℕ :=
  (Nat.sqrt (Int.toNat ⌊4 * s⌋) + 1) / 2

/-- SpatialTools.getPath: `dx = to.x - from.x`, `dz = to.z - from.z`;
direction is east/west when `|dx| > |dz|` (sign of dx), otherwise
south/north (sign of dz, ties toward the z-axis); distance is the rounded
Euclidean length. -/
def getPath (f t : ℚ × ℚ) : PathInfo :=
  let dx := t.1 - f.1
  let dz := t.2 - f.2
  { direction :=
      if |dx| > |dz| then (if dx > 0 then "east" else "west")
      else (if dz > 0 then "south" else "north"),
    distance := roundSqrt (dx ^ 2 + dz ^ 2) }

/-- Location argument of SpatialTools.executeBuild: a grid-reference
string, a `{near: point}` request, or a raw coordinate object. -/
inductive BuildLocation where
  | ref (grid : List ℕ)
  | nearPt (p : ℚ × ℚ)
  | point (p : ℚ × ℚ)
deriving DecidableEq

/-- Success payload of SpatialTools.executeBuild. -/
structure BuildOk where
  structureId : String
  type : String
  position : ℚ × ℚ
  gridRef : List ℕ
  template : Template
deriving DecidableEq

end SpatialTools

/-- One observable effect of an executor: a store mutation, an event-log
append, or a call of the broadcast sink. Executors return their effect
trace in execution order. -/
inductive Effect where
  | mutate (tag : String)
  | log (tag : String)
  | broadcast (tag : String)
deriving DecidableEq

namespace SpatialTools

open WorldState

/-- SpatialTools.executeBuild: template lookup, location resolution
(grid reference, spiral search near a point, or raw position), placement
validation, then the addStructure mutation. Failures return before any
mutation; the effect trace of a success is the single store mutation. -/
def executeBuild (dirs : List (ℚ × ℚ)) (w : World) (type : String)
    (location : BuildLocation) (builtBy : String) :
    Except String (BuildOk × World × List Effect) :=
  match getStructureTemplates type with
  | none => .error ("Unknown structure type: " ++ type)
  | some template =>
    let posOpt : Except String (ℚ × ℚ) :=
      match location with
      | .ref g => .ok (gridToWorld g)
      | .nearPt p =>
        match findEmptySpace dirs w p template.size with
        | some q => .ok q
        | none => .error "No empty space found"
      | .point p => .ok p
    match posOpt with
    | .error e => .error e
    | .ok position =>
      if validatePlacement w position template.size then
        let (structureId, w2) := addStructure w type position.1 0 position.2 builtBy
        .ok ({ structureId := structureId, type := type, position := position,
               gridRef := worldToGrid position.1 position.2, template := template },
             w2, [Effect.mutate "addStructure"])
      else .error "Space is occupied"

end SpatialTools

namespace ActionExecutor

open WorldState SpatialTools

/-- Bool test for an `Except` success. -/
def isOkB {ε α : Type} : Except ε α → Bool
  | .ok _ => true
  | .error _ => false

/-- Occurrence of one character list inside another, scanning every start
position: JavaScript `hay.includes(needle)`. -/
def subOccurs : List Char → List Char → Bool
  | needle, [] => needle.isEmpty
  | needle, c :: rest => needle.isPrefixOf (c :: rest) || subOccurs needle rest

/-- JavaScript `hay.includes(needle)` on strings. -/
def stringIncludes (hay needle : String) : Bool :=
  subOccurs needle.toList hay.toList

/-- Argument of resolveNear: either a coordinate object (`'x' in near`) or
a textual label. -/
inductive NearArg where
  | pt (p : ℚ × ℚ)
  | label (s : String)
deriving DecidableEq

/-- ActionExecutor.resolveNear: a coordinate passes through; otherwise
"center"/"origin" map to the origin, then a resident whose lowercased name
contains the label, then a structure within 100 of the origin whose type
contains the label, then the origin. -/
def resolveNear (w : World) (n : NearArg) : ℚ × ℚ :=
  match n with
  | .pt p => p
  | .label s =>
    let nearLower := s.toLower
    if nearLower = "center" ∨ nearLower = "origin" then (0, 0)
    else
      match w.residents.find? (fun r => stringIncludes r.name.toLower nearLower) with
      | some r => (r.position.x, r.position.z)
      | none =>
        match (getStructuresNear w 0 0 100).find? (fun s => stringIncludes s.type.toLower nearLower) with
        | some s => (s.x, s.z)
        | none => (0, 0)

/-- Parameters of ActionExecutor.executeBuild. -/
structure BuildParams where
  type : Option String
  location : Option BuildLocation
  near : Option NearArg
deriving DecidableEq

/-- Location resolution of ActionExecutor.executeBuild (the `buildLocation`
variable of the source): explicit location, else `near` through
resolveNear, else near the origin. -/
def buildLocationOf (w : World) (params : BuildParams) : BuildLocation :=
  match params.location with
  | some l => l
  | none =>
    match params.near with
    | some n => BuildLocation.nearPt (resolveNear w n)
    | none => BuildLocation.nearPt (0, 0)

/-- ActionExecutor.executeBuild: resolve the build location, delegate to
SpatialTools.executeBuild, and on success log `structure_built` and then
broadcast it. Failures return with the world unchanged and an empty
trace. -/
def executeBuild (dirs : List (ℚ × ℚ)) (w : World) (params : BuildParams) :
    Except String BuildOk × World × List Effect :=
  match params.type with
  | none => (.error "No structure type specified", w, [])
  | some type =>
    match SpatialTools.executeBuild dirs w type (buildLocationOf w params) "CLU" with
    | .error e => (.error e, w, [])
    | .ok (ok, w2, tr) =>
      let w3 := logEvent w2 "structure_built"
      (.ok ok, w3, tr ++ [Effect.log "structure_built", Effect.broadcast "structure_built"])

/-- Resident lookup shared by executeInstruct and executeMoveResident: by
id when residentId is given, otherwise by fuzzy lowercased-name inclusion
when residentName is given, otherwise none. -/
def findResident (w : World) (residentId residentName : Option String) : Option Resident :=
  match residentId with
  | some id => w.residents.find? (fun r => r.id == id)
  | none =>
    match residentName with
    | some nm => w.residents.find? (fun r => stringIncludes r.name.toLower nm.toLower)
    | none => none

/-- ActionExecutor.executeInstruct: resident not found fails with no
effect; otherwise the directive event is logged and then broadcast (no
store mutation). -/
def executeInstruct (w : World) (residentId residentName : Option String)
    (instruction : String) : Except String (String × String) × World × List Effect :=
  match findResident w residentId residentName with
  | none => (.error "Resident not found", w, [])
  | some resident =>
    let w2 := logEvent w "resident_directive"
    (.ok (resident.id, instruction), w2,
     [Effect.log "resident_directive", Effect.broadcast "clu_directive"])

/-- ActionExecutor.executeAnnounce: a missing or empty (falsy) message
fails with no effect; otherwise the announcement is logged and then
broadcast. -/
def executeAnnounce (w : World) (message : Option String) :
    Except String String × World × List Effect :=
  match message with
  | none => (.error "No message to announce", w, [])
  | some m =>
    if m = "" then (.error "No message to announce", w, [])
    else
      let w2 := logEvent w "clu_announcement"
      (.ok m, w2, [Effect.log "clu_announcement", Effect.broadcast "world_event"])

/-- Location argument of executeGather: a grid-reference string or a
coordinate object. -/
inductive GatherLoc where
  | ref (grid : List ℕ)
  | pt (p : ℚ × ℚ)
deriving DecidableEq

/-- Parameters of ActionExecutor.executeGather. -/
structure GatherParams where
  location : Option GatherLoc
  near : Option NearArg
deriving DecidableEq

/-- Entry of the `moved` list of executeGather. -/
structure MovedEntry where
  id : String
  name : String
  newPosition : Pos
  direction : String
deriving DecidableEq

/-- Success payload of executeGather. -/
structure GatherOk where
  target : ℚ × ℚ
  residentsAffected : ℕ
  movements : List MovedEntry
deriving DecidableEq

/-- Target resolution of executeGather: explicit location (grid reference
decoded, coordinate passed through), then `near` through resolveNear, then
the origin. -/
def gatherTarget (w : World) (p : GatherParams) : ℚ × ℚ :=
  match p.location with
  | some (.ref g) => gridToWorld g
  | some (.pt q) => q
  | none =>
    match p.near with
    | some n => resolveNear w n
    | none => (0, 0)

/-- Loop body of executeGather: the path is estimated from the snapshot
position of the resident, the move distance is `min(path.distance, 5)`,
and WorldState.moveResident is applied to the current store; a non-null
new position appends a moved entry, and the applied mutation is recorded
in the trace. -/
def gatherStep (target : ℚ × ℚ) (acc : World × List MovedEntry × List Effect)
    (r : Resident) : World × List MovedEntry × List Effect :=
  let path := getPath (r.position.x, r.position.z) target
  let moveDistance : ℚ := min (path.distance : ℚ) 5
  match moveResident acc.1 r.id ⟨path.direction, some moveDistance⟩ with
  | (some newPos, w2) =>
    (w2, acc.2.1 ++ [⟨r.id, r.name, newPos, path.direction⟩],
     acc.2.2 ++ [Effect.mutate "setResidentPosition"])
  | (none, w2) => (w2, acc.2.1, acc.2.2)

/-- ActionExecutor.executeGather: resolve the target, move every resident
partway toward it, log one aggregate `gather_command` event, then
broadcast one move event per moved resident and the collective
announcement. The call always reports success. -/
def executeGather (w : World) (p : GatherParams) : GatherOk × World × List Effect :=
  let target := gatherTarget w p
  let folded := w.residents.foldl (gatherStep target) (w, [], [])
  let moved := folded.2.1
  let w3 := logEvent folded.1 "gather_command"
  (⟨target, moved.length, moved⟩, w3,
   folded.2.2 ++ [Effect.log "gather_command"]
     ++ moved.map (fun _ => Effect.broadcast "resident_moved")
     ++ [Effect.broadcast "world_event"])

/-- Destination argument `to` of executeMoveResident (the field is named
`toLoc` because `to` is reserved in Lean): a grid-reference string or a
coordinate object. -/
inductive MoveTarget where
  | ref (grid : List ℕ)
  | pt (p : ℚ × ℚ)
deriving DecidableEq

/-- Parameters of ActionExecutor.executeMoveResident. -/
structure MoveParams where
  residentId : Option String
  residentName : Option String
  direction : Option String
  distance : Option ℚ
  toLoc : Option MoveTarget
deriving DecidableEq

/-- JavaScript `distance || dflt`: a missing distance and the falsy
distance `0` both become the default. -/
def jsOr (dflt : ℚ) (d : Option ℚ) : ℚ :=
  match d with
  | none => dflt
  | some q => if q = 0 then dflt else q

/-- The `newPos` computation of executeMoveResident: a `to` destination
moves along the estimated path capped at `distance || 10`; otherwise an
explicit direction moves by `distance || 3`; with neither, no move is
attempted. -/
def moveAttempt (w : World) (resident : Resident) (params : MoveParams) :
    Option (Option Pos × World) :=
  match params.toLoc with
  | some t =>
    let target := match t with | .ref g => gridToWorld g | .pt p => p
    let path := getPath (resident.position.x, resident.position.z) target
    some (moveResident w resident.id
      ⟨path.direction, some (min (path.distance : ℚ) (jsOr 10 params.distance))⟩)
  | none =>
    match params.direction with
    | some d => some (moveResident w resident.id ⟨d, some (jsOr 3 params.distance)⟩)
    | none => none

/-- ActionExecutor.executeMoveResident: resident not found fails with no
effect; otherwise the move attempt of `moveAttempt` is applied, and a
non-null new position is broadcast (with no event-log write). -/
def executeMoveResident (w : World) (params : MoveParams) :
    Except String (String × Pos) × World × List Effect :=
  match findResident w params.residentId params.residentName with
  | none => (.error "Resident not found", w, [])
  | some resident =>
    match moveAttempt w resident params with
    | some (some newPos, w2) =>
      (.ok (resident.id, newPos), w2,
       [Effect.mutate "setResidentPosition", Effect.broadcast "resident_moved"])
    | some (none, w2) => (.error "Failed to move resident", w2, [])
    | none => (.error "Failed to move resident", w, [])

end ActionExecutor

namespace WorldState

/-- Row of the `memories` table: per-resident sequence index, compressed
text, importance, timestamp. -/
structure Memory where
  memory_index : ℕ
  compressed_text : String
  importance : ℚ
  timestamp : ℕ
deriving DecidableEq

/-- Ordering used by `ORDER BY timestamp DESC`. -/
def tsDesc (a b : Memory) : Prop := b.timestamp ≤ a.timestamp

instance : DecidableRel tsDesc :=
  fun a b => inferInstanceAs (Decidable (b.timestamp ≤ a.timestamp))

instance : IsTotal Memory tsDesc := ⟨fun a b => le_total b.timestamp a.timestamp⟩

instance : IsTrans Memory tsDesc := ⟨fun _ _ _ h1 h2 => le_trans h2 h1⟩

/-- Rows of one resident sorted by `ORDER BY timestamp DESC` (SQLite
leaves the order of equal timestamps unspecified; the model fixes a
stable order on ties, on which no verified property depends). -/
def sortTsDesc (l : List Memory) : List Memory :=
  List.insertionSort tsDesc l

/-- `SELECT MAX(memory_index) ... ` with the `|| 0` default of the source
for an empty table. -/
def maxIdx (l : List Memory) : ℕ :=
  l.foldr (fun m acc => max m.memory_index acc) 0

/-- Prune step of WorldState.addMemory: delete every row whose
memory_index is not among the 100 most recent by timestamp, keeping
exactly the first 100 rows of the timestamp-descending order. -/
def pruneMemories (l : List Memory) : List Memory :=
  (sortTsDesc l).take 100

/-- WorldState.addMemory for one resident: the next index is
`MAX(memory_index) + 1`, the row is inserted with the supplied timestamp
(`Date.now()` in the source), then the table is pruned to the cap. -/
def addMemory (st : List Memory) (text : String) (importance : ℚ) (ts : ℕ) :
    List Memory :=
  let nextIndex := maxIdx st + 1
  pruneMemories (st ++ [⟨nextIndex, text, importance, ts⟩])

/-- WorldState.getMemories: `ORDER BY timestamp DESC LIMIT ?` (default
limit 20 in the source; the limit is explicit here). -/
def getMemories (st : List Memory) (limit : ℕ) : List Memory :=
  (sortTsDesc st).take limit

/-- One addMemory call: text, importance and the `Date.now()` timestamp
observed by that call. -/
structure MemCall where
  text : String
  importance : ℚ
  ts : ℕ
deriving DecidableEq

/-- Replay harness for a sequence of addMemory calls on one resident:
the per-resident table together with the list of every row ever
inserted. -/
def memStep (acc : List Memory × List Memory) (c : MemCall) :
    List Memory × List Memory :=
  (addMemory acc.1 c.text c.importance c.ts,
   acc.2 ++ [⟨maxIdx acc.1 + 1, c.text, c.importance, c.ts⟩])

/-- The memory table and the inserted rows after a finite sequence of
addMemory calls starting from an empty table. -/
def runMemory (calls : List MemCall) : List Memory × List Memory :=
  calls.foldl memStep ([], [])

end WorldState

namespace ResidentRunner

/-- Movement object of a turn result: `{direction, distance}`. -/
structure TurnMovement where
  direction : String
  distance : ℚ
deriving DecidableEq

/-- A turn outcome: inner thought, optional speech, optional action,
optional movement, timestamp — the well-formed shape every turn path of
the source produces. -/
structure Turn where
  inner_thought : String
  speech : Option String
  action : Option String
  movement : Option TurnMovement
  timestamp : ℕ
deriving DecidableEq

/-- One nearby resident as the perception lists it (only the name and the
count are read by mockTurn). -/
structure NearbyResident where
  name : String
deriving DecidableEq

/-- Stream of `Math.random()` values, consumed in call order. -/
def Rng : Type := ℕ → ℚ

/-- JavaScript `Math.floor(q * len)` as a list index. -/
def pickIdx (q : ℚ) (len : ℕ) : ℕ :=
  (⌊q * (len : ℚ)⌋).toNat

/-- ResidentRunner.mockTurn: the fallback policy. It draws from
`Math.random()` in source order — shouldMove first, then the thought,
speech and action picks, then (only when moving) direction and distance,
then the interaction coin when residents are nearby — so the outcome
depends on the random stream. -/
def mockTurn (soulName : String) (nearby : List NearbyResident) (ts : ℕ)
    (rng : Rng) : Turn :=
  let thoughts : List String :=
    ["The Grid hums with energy today. I sense " ++ toString nearby.length ++ " others nearby.",
     "Processing... My purpose drives me forward.",
     "These pathways are familiar, yet each cycle brings new patterns.",
     "I wonder what lies beyond the visible sectors.",
     "The data streams whisper of change."]
  let speeches : List (Option String) :=
    [none, none,
     some ("*" ++ soulName ++ " emits a low frequency pulse*"),
     some "The Grid provides.",
     some "Greetings, fellow programs.",
     some "Another cycle begins."]
  let actions : List (Option String) :=
    [none, none,
     some "scanning surroundings",
     some "adjusting internal parameters",
     some "processing data streams",
     some "emitting a soft glow"]
  let directions : List String := ["north", "south", "east", "west"]
  let shouldMove := rng 0 > 3 / 10
  let thought := thoughts.getD (pickIdx (rng 1) thoughts.length) ""
  let speech := speeches.getD (pickIdx (rng 2) speeches.length) none
  let action := actions.getD (pickIdx (rng 3) actions.length) none
  let movement : Option TurnMovement :=
    if shouldMove then
      some { direction := directions.getD (pickIdx (rng 4) directions.length) "",
             distance := ((⌊rng 5 * 3⌋ : ℤ) : ℚ) + 1 }
    else none
  let interactSlot := if shouldMove then 6 else 4
  let interact := decide (0 < nearby.length) && decide (rng interactSlot > 1 / 2)
  match (if interact then nearby.head? else none) with
  | some other =>
    { inner_thought := thought,
      speech := some ("*addresses " ++ other.name ++ "* I acknowledge your presence."),
      action := some ("turns toward " ++ other.name),
      movement := movement, timestamp := ts }
  | none =>
    { inner_thought := thought, speech := speech, action := action,
      movement := movement, timestamp := ts }

/-- Parsed JSON fields of a live response, after the regex extraction and
`JSON.parse` of the source; every field may be absent. -/
structure TurnJson where
  inner_thought : Option String
  speech : Option String
  action : Option String
  movement : Option TurnMovement
deriving DecidableEq

/-- JavaScript `value || null` on an optional string: a missing value and
the falsy empty string both become null. -/
def strOrNull : Option String → Option String
  | none => none
  | some s => if s = "" then none else some s

/-- ResidentRunner.liveTurn. The transport is the axios call (`Except`
error = rejected promise: failure or timeout); `decode` is the
regex-plus-JSON.parse stage, a function on the response text kept as a
parameter (`none` covers both a failed regex match and a JSON.parse
throw, which the enclosing try/catch also routes to the fallback). Every
failure path returns mockTurn; a parsed result is normalised field by
field (`|| ''`, `|| null`). -/
def liveTurn (decode : String → Option TurnJson)
    (transport : Except String String) (soulName : String)
    (nearby : List NearbyResident) (ts : ℕ) (rng : Rng) : Turn :=
  match transport with
  | .error _ => mockTurn soulName nearby ts rng
  | .ok text =>
    match decode text with
    | some j =>
      { inner_thought := j.inner_thought.getD "",
        speech := strOrNull j.speech,
        action := strOrNull j.action,
        movement := j.movement,
        timestamp := ts }
    | none => mockTurn soulName nearby ts rng

end ResidentRunner

/-- Cycle counter of the simulation loop (part_003). -/
structure SimState where
  cycleCount : ℕ
deriving DecidableEq

/-- One iteration of simulationLoop: `cycleCount++`, then, when residents
exist, the resident at `cycleCount % residents.length` is selected for a
turn. -/
def simulationTick (w : World) (s : SimState) : SimState × Option Resident :=
  let c := s.cycleCount + 1
  (⟨c⟩, if 0 < w.residents.length then w.residents.get? (c % w.residents.length) else none)

/-- Scan over a trace checking that every broadcast is preceded by an
event-log write: the state carries whether a log has been seen and
whether every broadcast so far was covered by an earlier log. -/
def covered (tr : List Effect) : Bool :=
  (tr.foldl
    (fun st e =>
      match e with
      | Effect.log _ => (true, st.2)
      | Effect.broadcast _ => (st.1, st.2 && st.1)
      | Effect.mutate _ => st)
    (false, true)).2

/-! ### Decimal codec lemmas for the grid-reference round trip -/

namespace SpatialTools

theorem parseNatCodes_append_digit (l : List ℕ) (d : ℕ) :
    parseNatCodes (l ++ [d]) = parseNatCodes l * 10 + (d - 48) := by
  simp [parseNatCodes, List.foldl_append]

theorem parseNatCodes_natToCodes (n : ℕ) : parseNatCodes (natToCodes n) = n := by
  induction n using natToCodes.induct with
  | case1 n h =>
    rw [natToCodes, if_pos h]
    simp [parseNatCodes]
  | case2 n h ih =>
    rw [natToCodes, if_neg h, parseNatCodes_append_digit, ih]
    omega

theorem natToCodes_ne_nil (n : ℕ) : natToCodes n ≠ [] := by
  rw [natToCodes]
  split <;> simp

theorem natToCodes_mem_digit (n : ℕ) : ∀ c ∈ natToCodes n, 48 ≤ c := by
  induction n using natToCodes.induct with
  | case1 n h =>
    rw [natToCodes, if_pos h]
    intro c hc
    simp at hc
    omega
  | case2 n h ih =>
    rw [natToCodes, if_neg h]
    intro c hc
    rcases List.mem_append.1 hc with h1 | h2
    · exact ih c h1
    · simp at h2
      omega

theorem parseIntCodes_natToCodes (n : ℕ) : parseIntCodes (natToCodes n) = (n : ℤ) := by
  cases h : natToCodes n with
  | nil => exact absurd h (natToCodes_ne_nil n)
  | cons c rest =>
    have hc : 48 ≤ c := natToCodes_mem_digit n c (h ▸ List.mem_cons_self c rest)
    simp only [parseIntCodes, if_neg (show ¬ c = 45 by omega), ← h, parseNatCodes_natToCodes]

theorem parseIntCodes_intToCodes (i : ℤ) : parseIntCodes (intToCodes i) = i := by
  by_cases h : i < 0
  · rw [intToCodes, if_pos h]
    have h45 : parseIntCodes (45 :: natToCodes i.natAbs) =
        -(parseNatCodes (natToCodes i.natAbs) : ℤ) := by
      simp [parseIntCodes]
    rw [h45, parseNatCodes_natToCodes]
    omega
  · rw [intToCodes, if_neg h, parseIntCodes_natToCodes]
    omega

theorem jsRem_self_of_small (a : ℤ) (h1 : -26 < a) (h2 : a < 26) : jsRem a 26 = a := by
  rw [jsRem]
  split
  · exact Int.emod_eq_of_lt (by omega) h2
  · rw [Int.emod_eq_of_lt (by omega) (by omega)]
    omega

end SpatialTools

open SpatialTools in
/-- C4 counterexample: at the world point `(0,0)` — inside the supported
extent — the decoded cell center is `(5/2, 5/2)`, whose squared Euclidean
distance to `(0,0)` is `25/2 > (gridSize/2)^2`: the round trip is NOT
within half a cell-size of the input in the Euclidean metric. -/
theorem C4_counterexample :
    (-175 : ℚ) ≤ 0 ∧ (0 : ℚ) < 80 ∧
    ((gridToWorld (worldToGrid 0 0)).1 - 0) ^ 2 + ((gridToWorld (worldToGrid 0 0)).2 - 0) ^ 2
      > (gridSize / 2) ^ 2 := by
  have h0 : ((0 : ℚ) / gridSize) = 0 := by norm_num [gridSize]
  have hfl : ⌊((0 : ℚ) / gridSize)⌋ = 0 := by rw [h0]; exact Int.floor_zero
  have hw : worldToGrid 0 0 = 75 :: intToCodes 10 := by
    rw [worldToGrid, hfl]
    rw [show jsRem (0 + 10) 26 = 10 from by rw [jsRem]; norm_num
    ]
    norm_num
    decide
  have hg : gridToWorld (worldToGrid 0 0) = (5 / 2, 5 / 2) := by
    rw [hw, gridToWorld]
    rw [parseIntCodes_intToCodes]
    norm_num [gridSize]
  refine ⟨by norm_num, by norm_num, ?_⟩
  rw [hg]
  norm_num [gridSize]

open SpatialTools in
/-- C4 (amended): for every `(x,z)` with `-175 ≤ x < 80` (the extent on
which the column letter round-trips; no constraint on z is needed),
`gridRefToWorld (worldToGridRef (x,z))` is within half a cell-size of
`(x,z)` in each coordinate (axis-wise, hence within `(gridSize/2)·√2`
Euclidean). -/
theorem C4_amended (x z : ℚ) (h1 : -175 ≤ x) (h2 : x < 80) :
    |(gridToWorld (worldToGrid x z)).1 - x| ≤ gridSize / 2 ∧
    |(gridToWorld (worldToGrid x z)).2 - z| ≤ gridSize / 2 := by
  have h5 : gridSize = (5 : ℚ) := rfl
  set gx := ⌊x / gridSize⌋ with hgx
  set gz := ⌊z / gridSize⌋ with hgz
  have hgxlo : (-35 : ℤ) ≤ gx := by
    rw [hgx]
    apply Int.le_floor.2
    rw [h5]
    push_cast
    linarith
  have hgxhi : gx < 16 := by
    rw [hgx]
    apply Int.floor_lt.2
    rw [h5]
    push_cast
    linarith
  have hrem : jsRem (gx + 10) 26 = gx + 10 :=
    jsRem_self_of_small _ (by omega) (by omega)
  have hw : worldToGrid x z = (65 + jsRem (gx + 10) 26).toNat :: intToCodes (gz + 10) := rfl
  have hg1 : (gridToWorld (worldToGrid x z)).1 = ((gx : ℤ) : ℚ) * gridSize + gridSize / 2 := by
    rw [hw]
    show ((((65 + jsRem (gx + 10) 26).toNat : ℤ) - 65 - 10 : ℤ) : ℚ) * gridSize + gridSize / 2 = _
    rw [show ((65 + jsRem (gx + 10) 26).toNat : ℤ) - 65 - 10 = gx from by rw [hrem]; omega]
  have hg2 : (gridToWorld (worldToGrid x z)).2 = ((gz : ℤ) : ℚ) * gridSize + gridSize / 2 := by
    rw [hw]
    show (((parseIntCodes (intToCodes (gz + 10)) - 10 : ℤ) : ℚ)) * gridSize + gridSize / 2 = _
    rw [parseIntCodes_intToCodes]
    rw [show gz + 10 - 10 = gz from by omega]
  have hxlo : ((gx : ℤ) : ℚ) ≤ x / gridSize := Int.floor_le (x / gridSize)
  have hxhi : x / gridSize < ((gx : ℤ) : ℚ) + 1 := Int.lt_floor_add_one (x / gridSize)
  have hzlo : ((gz : ℤ) : ℚ) ≤ z / gridSize := Int.floor_le (z / gridSize)
  have hzhi : z / gridSize < ((gz : ℤ) : ℚ) + 1 := Int.lt_floor_add_one (z / gridSize)
  rw [h5] at hxlo hxhi hzlo hzhi
  rw [hg1, hg2, h5]
  constructor
  · rw [abs_le]
    constructor <;> linarith
  · rw [abs_le]
    constructor <;> linarith

/-- C4 witness: the amended round-trip bound instanced at `(40, 7)`. -/
theorem C4_witness :
    (-175 : ℚ) ≤ 40 ∧ (40 : ℚ) < 80 ∧
    (|(SpatialTools.gridToWorld (SpatialTools.worldToGrid 40 7)).1 - 40| ≤ SpatialTools.gridSize / 2 ∧
     |(SpatialTools.gridToWorld (SpatialTools.worldToGrid 40 7)).2 - 7| ≤ SpatialTools.gridSize / 2) :=
  ⟨by norm_num, by norm_num, C4_amended 40 7 (by norm_num) (by norm_num)⟩

/-! ### C5: round-robin world-tick selection -/

/-- C5: the world tick is deterministic round-robin. A tick increments the
cycle counter and then selects exactly the resident at index
`cycleCounter mod population` (`residents[cycleCount % residents.length]`);
the selection is total whenever the population is positive, so with 5
entities the counter values select `entity[cycle mod 5]` in a fixed
sequence. -/
theorem C5_round_robin (w : World) (s : SimState) (h : 0 < w.residents.length) :
    (simulationTick w s).1 = ⟨s.cycleCount + 1⟩ ∧
    (simulationTick w s).2 = w.residents.get? ((s.cycleCount + 1) % w.residents.length) ∧
    ((simulationTick w s).2).isSome = true := by
  refine ⟨rfl, by simp [simulationTick, h], ?_⟩
  simp only [simulationTick, if_pos h]
  rw [List.get?_eq_getElem?, List.getElem?_eq_getElem (Nat.mod_lt _ h)]
  rfl

/-- Five-resident world of the round-robin scenario. -/
def simW : World :=
  ⟨[⟨"r1", "Ram", ⟨0, 0, 0⟩, "idle"⟩, ⟨"r2", "Sark", ⟨1, 0, 0⟩, "idle"⟩,
    ⟨"r3", "Yori", ⟨2, 0, 0⟩, "idle"⟩, ⟨"r4", "Crom", ⟨3, 0, 0⟩, "idle"⟩,
    ⟨"r5", "Dumont", ⟨4, 0, 0⟩, "idle"⟩], [], []⟩

/-- C5 witness: with 5 residents and cycle counter 6, the tick advances the
counter to 7 and selects the resident at index `7 mod 5`. -/
theorem C5_witness :
    (simulationTick simW ⟨6⟩).1 = ⟨7⟩ ∧
    (simulationTick simW ⟨6⟩).2 = simW.residents.get? (7 % 5) ∧
    ((simulationTick simW ⟨6⟩).2).isSome = true :=
  C5_round_robin simW ⟨6⟩ (by decide)

/-! ### C7 and C10: WorldState.moveResident -/

/-- C7 (amended): moveResident returns null and leaves the store unchanged
for an unknown id, and for every known id, axis direction and NONZERO
distance the returned position is the old one displaced by the unit axis
vector scaled by that distance, with y unchanged and no diagonal motion
(the distance 0 is excluded: the source treats the falsy `0` as 1, see the
counterexample and C10). -/
theorem C7_move_resident_amended :
    (∀ (w : World) (id : String) (mv : WorldState.Movement),
        WorldState.getResidentPosition w id = none →
        WorldState.moveResident w id mv = (none, w)) ∧
    (∀ (w : World) (id : String) (d : String) (q : ℚ) (p : Pos),
        WorldState.getResidentPosition w id = some p → q ≠ 0 →
        (WorldState.moveResident w id ⟨d, some q⟩).1 =
          some ⟨p.x + (WorldState.dirVec d).1 * q, p.y, p.z + (WorldState.dirVec d).2 * q⟩) ∧
    WorldState.dirVec "north" = (0, -1) ∧ WorldState.dirVec "south" = (0, 1) ∧
    WorldState.dirVec "east" = (1, 0) ∧ WorldState.dirVec "west" = (-1, 0) := by
  refine ⟨?_, ?_, rfl, rfl, rfl, rfl⟩
  · intro w id mv hp
    simp [WorldState.moveResident, hp]
  · intro w id d q p hp hq
    simp [WorldState.moveResident, hp, WorldState.distOr1, hq]

/-- One-resident world sitting at the origin. -/
def wMove : World := ⟨[⟨"r1", "Ram", ⟨0, 0, 0⟩, "idle"⟩], [], []⟩

/-- C7 counterexample: at distance 0 the claim requires the displacement
`direction * 0 = 0`, but the source computes `movement.distance || 1` and
moves the resident one full unit north instead. -/
theorem C7_counterexample :
    (WorldState.moveResident wMove "r1" ⟨"north", some 0⟩).1 = some ⟨0, 0, -1⟩ ∧
    ((⟨0, 0, -1⟩ : Pos) ≠
      ⟨0 + (WorldState.dirVec "north").1 * 0, 0, 0 + (WorldState.dirVec "north").2 * 0⟩) := by
  have hp : WorldState.getResidentPosition wMove "r1" = some ⟨0, 0, 0⟩ := by
    simp [WorldState.getResidentPosition, wMove]
  constructor
  · simp [WorldState.moveResident, hp, WorldState.distOr1, WorldState.dirVec]
  · simp [WorldState.dirVec, Pos.mk.injEq]

/-- C10: for a known resident, an unrecognized direction string still
returns a non-null position equal to the current one (zero displacement,
no error), and a missing or zero distance is treated as distance 1. -/
theorem C10_move_resident_defaults :
    (∀ (w : World) (id : String) (p : Pos) (mv : WorldState.Movement),
        WorldState.getResidentPosition w id = some p →
        mv.direction ∉ (["north", "south", "east", "west"] : List String) →
        (WorldState.moveResident w id mv).1 = some ⟨p.x, p.y, p.z⟩) ∧
    (∀ (w : World) (id : String) (p : Pos) (d : String),
        WorldState.getResidentPosition w id = some p →
        (WorldState.moveResident w id ⟨d, none⟩).1 =
          some ⟨p.x + (WorldState.dirVec d).1 * 1, p.y, p.z + (WorldState.dirVec d).2 * 1⟩ ∧
        (WorldState.moveResident w id ⟨d, some 0⟩).1 =
          some ⟨p.x + (WorldState.dirVec d).1 * 1, p.y, p.z + (WorldState.dirVec d).2 * 1⟩) := by
  constructor
  · intro w id p mv hp hd
    simp only [List.mem_cons, List.not_mem_nil, or_false, not_or] at hd
    obtain ⟨h1, h2, h3, h4⟩ := hd
    simp [WorldState.moveResident, hp, WorldState.dirVec, h1, h2, h3, h4]
  · intro w id p d hp
    constructor <;> simp [WorldState.moveResident, hp, WorldState.distOr1]

/-- C10 demonstration at a concrete store: direction "up" is unrecognized
and leaves the position as is; distance 0 moves exactly 1 unit. -/
theorem C10_demo :
    (WorldState.moveResident wMove "r1" ⟨"up", some 7⟩).1 = some ⟨0, 0, 0⟩ ∧
    (WorldState.moveResident wMove "r1" ⟨"east", none⟩).1 = some ⟨1, 0, 0⟩ := by
  have hp : WorldState.getResidentPosition wMove "r1" = some ⟨0, 0, 0⟩ := by
    simp [WorldState.getResidentPosition, wMove]
  constructor
  · have h := C10_move_resident_defaults.1 wMove "r1" ⟨0, 0, 0⟩ ⟨"up", some 7⟩ hp (by simp)
    exact h
  · have h := (C10_move_resident_defaults.2 wMove "r1" ⟨0, 0, 0⟩ "east" hp).1
    rw [h, show WorldState.dirVec "east" = (1, 0) from rfl]
    norm_num

/-! ### C8: validation failures short-circuit -/

/-- C8: every validation failure of ActionExecutor — missing or unknown
structure type, occupied placement, resident not found (instruct and
move_resident), missing or empty message — returns a failed result with
the world unchanged (no store mutation, no event-log write) and an empty
effect trace (logEvent and the broadcast sink are never reached). -/
theorem C8_validation_short_circuit :
    (∀ (dirs : List (ℚ × ℚ)) (w : World) (loc : Option SpatialTools.BuildLocation)
        (near : Option ActionExecutor.NearArg),
        ActionExecutor.executeBuild dirs w ⟨none, loc, near⟩ =
          (.error "No structure type specified", w, [])) ∧
    (∀ (dirs : List (ℚ × ℚ)) (w : World) (ty : String) (loc : Option SpatialTools.BuildLocation)
        (near : Option ActionExecutor.NearArg),
        SpatialTools.getStructureTemplates ty = none →
        ActionExecutor.executeBuild dirs w ⟨some ty, loc, near⟩ =
          (.error ("Unknown structure type: " ++ ty), w, [])) ∧
    (∀ (dirs : List (ℚ × ℚ)) (w : World) (ty : String) (p : ℚ × ℚ)
        (tmpl : SpatialTools.Template) (near : Option ActionExecutor.NearArg),
        SpatialTools.getStructureTemplates ty = some tmpl →
        SpatialTools.validatePlacement w p tmpl.size = false →
        ActionExecutor.executeBuild dirs w ⟨some ty, some (SpatialTools.BuildLocation.point p), near⟩ =
          (.error "Space is occupied", w, [])) ∧
    (∀ (w : World) (rid rname : Option String) (ins : String),
        ActionExecutor.findResident w rid rname = none →
        ActionExecutor.executeInstruct w rid rname ins = (.error "Resident not found", w, [])) ∧
    (∀ (w : World),
        ActionExecutor.executeAnnounce w none = (.error "No message to announce", w, []) ∧
        ActionExecutor.executeAnnounce w (some "") = (.error "No message to announce", w, [])) ∧
    (∀ (w : World) (params : ActionExecutor.MoveParams),
        ActionExecutor.findResident w params.residentId params.residentName = none →
        ActionExecutor.executeMoveResident w params = (.error "Resident not found", w, [])) ∧
    (∀ (dirs : List (ℚ × ℚ)) (w : World) (params : ActionExecutor.BuildParams),
        ActionExecutor.isOkB (ActionExecutor.executeBuild dirs w params).1 = false →
        (ActionExecutor.executeBuild dirs w params).2.1 = w ∧
        (ActionExecutor.executeBuild dirs w params).2.2 = []) := by
  refine ⟨?_, ?_, ?_, ?_, ?_, ?_, ?_⟩
  · intro dirs w loc near
    rfl
  · intro dirs w ty loc near hT
    cases loc with
    | some l =>
      simp [ActionExecutor.executeBuild, ActionExecutor.buildLocationOf,
        SpatialTools.executeBuild, hT]
    | none => cases near with
      | some n =>
        simp [ActionExecutor.executeBuild, ActionExecutor.buildLocationOf,
          SpatialTools.executeBuild, hT]
      | none =>
        simp [ActionExecutor.executeBuild, ActionExecutor.buildLocationOf,
          SpatialTools.executeBuild, hT]
  · intro dirs w ty p tmpl near hT hv
    simp [ActionExecutor.executeBuild, ActionExecutor.buildLocationOf,
      SpatialTools.executeBuild, hT, hv]
  · intro w rid rname ins hf
    simp [ActionExecutor.executeInstruct, hf]
  · intro w
    exact ⟨rfl, by simp [ActionExecutor.executeAnnounce]⟩
  · intro w params hf
    simp [ActionExecutor.executeMoveResident, hf]
  · intro dirs w params hfail
    unfold ActionExecutor.executeBuild at hfail ⊢
    rcases hty : params.type with _ | ty
    · exact ⟨rfl, rfl⟩
    · dsimp only
      rcases hB : SpatialTools.executeBuild dirs w ty
          (ActionExecutor.buildLocationOf w params) "CLU" with e | out
      · exact ⟨rfl, rfl⟩
      · obtain ⟨ok, w2, tr⟩ := out
        simp [ActionExecutor.isOkB, hty, hB] at hfail

/-- C8 witness: the short-circuits instanced on a concrete store: unknown
structure type "tower", an occupied placement next to the stored resident,
an unknown resident, and an empty announcement. -/
theorem C8_witness :
    ActionExecutor.executeBuild [] wMove ⟨some "tower", none, none⟩ =
      (.error ("Unknown structure type: " ++ "tower"), wMove, []) ∧
    ActionExecutor.executeInstruct wMove (some "ghost") none "stand by" =
      (.error "Resident not found", wMove, []) ∧
    ActionExecutor.executeAnnounce wMove (some "") = (.error "No message to announce", wMove, []) ∧
    ActionExecutor.executeMoveResident wMove ⟨some "ghost", none, some "north", none, none⟩ =
      (.error "Resident not found", wMove, []) :=
  ⟨C8_validation_short_circuit.2.1 [] wMove "tower" none none rfl,
   C8_validation_short_circuit.2.2.2.1 wMove (some "ghost") none "stand by"
     (by simp [ActionExecutor.findResident, wMove]),
   (C8_validation_short_circuit.2.2.2.2.1 wMove).2,
   C8_validation_short_circuit.2.2.2.2.2.1 wMove ⟨some "ghost", none, some "north", none, none⟩
     (by simp [ActionExecutor.findResident, wMove])⟩

/-! ### C1: clearance of successful builds -/

namespace SpatialTools

theorem executeBuild_ok_spec (dirs : List (ℚ × ℚ)) (w : World) (ty : String)
    (loc : BuildLocation) (b : String) (ok : BuildOk) (w2 : World) (tr : List Effect)
    (h : executeBuild dirs w ty loc b = .ok (ok, w2, tr)) :
    tr = [Effect.mutate "addStructure"] ∧
    getStructureTemplates ty = some ok.template ∧
    validatePlacement w ok.position ok.template.size = true := by
  unfold executeBuild at h
  split at h
  · simp at h
  · rename_i tmpl hT
    dsimp only at h
    split at h
    · simp at h
    · rename_i position hpos
      split at h
      · rename_i hv
        simp only [WorldState.addStructure, Except.ok.injEq, Prod.mk.injEq] at h
        obtain ⟨hok, hw2, htr⟩ := h
        subst hok
        exact ⟨htr.symm, by rw [hT], hv⟩
      · simp at h

theorem validatePlacement_spec (w : World) (pos : ℚ × ℚ) (size : ℚ)
    (h : validatePlacement w pos size = true) :
    (∀ r ∈ w.residents,
        (size * gridSize) ^ 2 ≤ distSq r.position.x r.position.z pos.1 pos.2) ∧
    (∀ s ∈ w.structures,
        distSq s.x s.z pos.1 pos.2 ≤ (size * gridSize * 2) ^ 2 →
        (size * gridSize) ^ 2 ≤ distSq s.x s.z pos.1 pos.2) := by
  simp only [validatePlacement, isSpaceClear, Bool.and_eq_true, List.all_eq_true,
    decide_eq_true_eq] at h
  obtain ⟨hr, hs⟩ := h
  refine ⟨hr, ?_⟩
  intro s hsm hrange
  refine hs s ?_
  simp only [getStructuresNear, List.mem_filter, decide_eq_true_eq]
  exact ⟨hsm, hrange⟩

end SpatialTools

open SpatialTools in
/-- C1 (amended): whenever SpatialTools.executeBuild succeeds, the center
of the new structure is at Euclidean distance AT LEAST `size * gridSize`
(not necessarily strictly more: the source rejects only `dist < minDist`)
from every pre-existing resident, and from every pre-existing structure
within the checked range `2 * size * gridSize` of the placement. -/
theorem C1_amended (dirs : List (ℚ × ℚ)) (w : World) (ty : String)
    (loc : BuildLocation) (res : BuildOk) (w2 : World) (tr : List Effect)
    (h : executeBuild dirs w ty loc "CLU" = .ok (res, w2, tr)) :
    (∀ r ∈ w.residents,
        (res.template.size * gridSize) ^ 2 ≤
          distSq r.position.x r.position.z res.position.1 res.position.2) ∧
    (∀ s ∈ w.structures,
        distSq s.x s.z res.position.1 res.position.2 ≤ (res.template.size * gridSize * 2) ^ 2 →
        (res.template.size * gridSize) ^ 2 ≤ distSq s.x s.z res.position.1 res.position.2) := by
  obtain ⟨-, -, hv⟩ := executeBuild_ok_spec dirs w ty loc "CLU" res w2 tr h
  exact validatePlacement_spec w res.position res.template.size hv

/-- The empty world. -/
def emptyW : World := ⟨[], [], []⟩

open SpatialTools in
set_option maxHeartbeats 1600000 in
/-- Build result of the C1 witness build. -/
def buildOkW : SpatialTools.BuildOk :=
  { structureId := "structure-0", type := "beacon", position := (7, 0),
    gridRef := SpatialTools.worldToGrid 7 0,
    template := ⟨"Beacon Tower", 1, "gather_point"⟩ }

/-- World after the C1 witness build. -/
def worldAfterBuildW : World := ⟨[], [⟨"structure-0", "beacon", 7, 0, 0, "CLU"⟩], []⟩

open SpatialTools in
/-- C1 witness: a successful beacon build on the empty world at `(7,0)`,
with the clearance conclusion instanced there (vacuously over the empty
occupancy lists). -/
theorem C1_witness :
    executeBuild [] emptyW "beacon" (BuildLocation.point (7, 0)) "CLU" =
      .ok (buildOkW, worldAfterBuildW, [Effect.mutate "addStructure"]) ∧
    ((∀ r ∈ emptyW.residents,
        (buildOkW.template.size * gridSize) ^ 2 ≤
          distSq r.position.x r.position.z buildOkW.position.1 buildOkW.position.2) ∧
     (∀ s ∈ emptyW.structures,
        distSq s.x s.z buildOkW.position.1 buildOkW.position.2 ≤
          (buildOkW.template.size * gridSize * 2) ^ 2 →
        (buildOkW.template.size * gridSize) ^ 2 ≤
          distSq s.x s.z buildOkW.position.1 buildOkW.position.2)) := by
  have hv : validatePlacement emptyW (7, 0) 1 = true := rfl
  have hb : executeBuild [] emptyW "beacon" (BuildLocation.point (7, 0)) "CLU" =
      .ok (buildOkW, worldAfterBuildW, [Effect.mutate "addStructure"]) := by
    unfold executeBuild
    rw [show getStructureTemplates "beacon" = some ⟨"Beacon Tower", 1, "gather_point"⟩ from rfl]
    simp only [hv, if_true]
    rfl
  exact ⟨hb, C1_amended [] emptyW "beacon" _ _ _ _ hb⟩

/-- Position of a successful build result (origin for a failure). -/
def buildPosOf (e : Except String (SpatialTools.BuildOk × World × List Effect)) : ℚ × ℚ :=
  match e with
  | .ok (ok, _, _) => ok.position
  | .error _ => (0, 0)

/-- One-resident world with the resident exactly `size * gridSize = 5`
away from the placement point `(5, 0)`. -/
def cexBuildW : World := ⟨[⟨"r1", "Yori", ⟨0, 0, 0⟩, "idle"⟩], [], []⟩

open SpatialTools in
/-- C1 counterexample: the build of a beacon at `(5,0)` SUCCEEDS although
the pre-existing resident at the origin is at distance exactly
`size * gridSize` — not strictly farther, as the claim requires
("exceeds"): the source admits the boundary case `dist = minDist`. -/
theorem C1_counterexample :
    ActionExecutor.isOkB (executeBuild [] cexBuildW "beacon"
        (BuildLocation.point (5, 0)) "CLU") = true ∧
    buildPosOf (executeBuild [] cexBuildW "beacon"
        (BuildLocation.point (5, 0)) "CLU") = (5, 0) ∧
    getStructureTemplates "beacon" = some ⟨"Beacon Tower", 1, "gather_point"⟩ ∧
    (⟨"r1", "Yori", ⟨0, 0, 0⟩, "idle"⟩ : Resident) ∈ cexBuildW.residents ∧
    distSq 0 0 5 0 = ((1 : ℚ) * gridSize) ^ 2 := by
  have hv : validatePlacement cexBuildW (5, 0) 1 = true := by
    simp only [validatePlacement, isSpaceClear, getStructuresNear, cexBuildW, distSq, gridSize,
      List.filter_nil, List.all_nil, List.all_cons, Bool.and_eq_true, decide_eq_true_eq]
    norm_num
  have hb : executeBuild [] cexBuildW "beacon" (BuildLocation.point (5, 0)) "CLU" =
      .ok ({ structureId := "structure-0", type := "beacon", position := (5, 0),
             gridRef := worldToGrid 5 0,
             template := ⟨"Beacon Tower", 1, "gather_point"⟩ },
           { cexBuildW with structures := [⟨"structure-0", "beacon", 5, 0, 0, "CLU"⟩] },
           [Effect.mutate "addStructure"]) := by
    unfold executeBuild
    rw [show getStructureTemplates "beacon" = some ⟨"Beacon Tower", 1, "gather_point"⟩ from rfl]
    simp only [hv, if_true]
    rfl
  refine ⟨by rw [hb]; rfl, by rw [hb]; rfl, rfl, by simp [cexBuildW], ?_⟩
  norm_num [distSq, gridSize]

/-! ### C3: log-before-broadcast discipline -/

/-- Bool test for a mutate effect. -/
def isMutate : Effect → Bool
  | Effect.mutate _ => true
  | _ => false

/-- Step function of the `covered` scan, named for the proofs. -/
def coveredStep (st : Bool × Bool) (e : Effect) : Bool × Bool :=
  match e with
  | Effect.log _ => (true, st.2)
  | Effect.broadcast _ => (st.1, st.2 && st.1)
  | Effect.mutate _ => st

theorem covered_eq_foldl (tr : List Effect) :
    covered tr = (tr.foldl coveredStep (false, true)).2 := by
  have h : ∀ (l : List Effect) (st : Bool × Bool),
      l.foldl (fun st e =>
        match e with
        | Effect.log _ => (true, st.2)
        | Effect.broadcast _ => (st.1, st.2 && st.1)
        | Effect.mutate _ => st) st = l.foldl coveredStep st := by
    intro l
    induction l with
    | nil => intro st; rfl
    | cons e rest ih =>
      intro st
      cases e <;> simp [List.foldl_cons, coveredStep, ih]
  rw [covered, h]

theorem foldl_coveredStep_true (tr : List Effect) :
    tr.foldl coveredStep (true, true) = (true, true) := by
  induction tr with
  | nil => rfl
  | cons e rest ih => cases e <;> simpa [coveredStep] using ih

theorem foldl_coveredStep_mutates (ms : List Effect)
    (h : ∀ e ∈ ms, isMutate e = true) :
    ms.foldl coveredStep (false, true) = (false, true) := by
  induction ms with
  | nil => rfl
  | cons e rest ih =>
    cases e with
    | mutate t => exact ih (fun x hx => h x (List.mem_cons_of_mem _ hx))
    | log t => exact absurd (h _ (List.mem_cons_self _ _)) (by simp [isMutate])
    | broadcast t => exact absurd (h _ (List.mem_cons_self _ _)) (by simp [isMutate])

theorem covered_mutates_then_log (ms : List Effect) (t : String) (rest : List Effect)
    (h : ∀ e ∈ ms, isMutate e = true) :
    covered (ms ++ Effect.log t :: rest) = true := by
  rw [covered_eq_foldl, List.foldl_append, foldl_coveredStep_mutates ms h]
  show (rest.foldl coveredStep (coveredStep (false, true) (Effect.log t))).2 = true
  rw [show coveredStep (false, true) (Effect.log t) = (true, true) from rfl,
    foldl_coveredStep_true]

theorem gather_fold_mutates (target : ℚ × ℚ) (rs : List Resident)
    (acc : World × List ActionExecutor.MovedEntry × List Effect)
    (h : ∀ e ∈ acc.2.2, isMutate e = true) :
    ∀ e ∈ (rs.foldl (ActionExecutor.gatherStep target) acc).2.2, isMutate e = true := by
  induction rs generalizing acc with
  | nil => exact h
  | cons r rest ih =>
    rw [List.foldl_cons]
    apply ih
    unfold ActionExecutor.gatherStep
    rcases hM : WorldState.moveResident acc.1 r.id
        ⟨(SpatialTools.getPath (r.position.x, r.position.z) target).direction,
         some (min ((SpatialTools.getPath (r.position.x, r.position.z) target).distance : ℚ) 5)⟩
      with ⟨op, w2⟩
    cases op with
    | some newPos =>
      simp only [hM]
      intro e he
      rcases List.mem_append.1 he with h1 | h2
      · exact h e h1
      · simp at h2
        subst h2
        rfl
    | none =>
      simp only [hM]
      exact h

/-- C3 (amended): in executeBuild and executeGather every broadcast of the
effect trace is preceded by an event-log write (for every input, including
failures); the exception is executeMoveResident, whose successful trace is
exactly a store mutation followed by a broadcast with NO log write. -/
theorem C3_amended :
    (∀ (dirs : List (ℚ × ℚ)) (w : World) (params : ActionExecutor.BuildParams),
        covered (ActionExecutor.executeBuild dirs w params).2.2 = true) ∧
    (∀ (w : World) (p : ActionExecutor.GatherParams),
        covered (ActionExecutor.executeGather w p).2.2 = true) ∧
    (∀ (w : World) (params : ActionExecutor.MoveParams) (out : String × Pos)
        (w2 : World) (tr : List Effect),
        ActionExecutor.executeMoveResident w params = (.ok out, w2, tr) →
        tr = [Effect.mutate "setResidentPosition", Effect.broadcast "resident_moved"] ∧
        covered tr = false) := by
  refine ⟨?_, ?_, ?_⟩
  · intro dirs w params
    unfold ActionExecutor.executeBuild
    cases hty : params.type with
    | none => rfl
    | some ty =>
      dsimp only
      rcases hB : SpatialTools.executeBuild dirs w ty
          (ActionExecutor.buildLocationOf w params) "CLU" with e | out
      · rfl
      · obtain ⟨ok, w2, tr⟩ := out
        obtain ⟨htr, -, -⟩ := SpatialTools.executeBuild_ok_spec _ _ _ _ _ _ _ _ hB
        subst htr
        rfl
  · intro w p
    unfold ActionExecutor.executeGather
    have hm : ∀ e ∈ (w.residents.foldl (ActionExecutor.gatherStep (ActionExecutor.gatherTarget w p))
        (w, [], [])).2.2, isMutate e = true :=
      gather_fold_mutates _ _ _ (by intro e he; simp at he)
    dsimp only
    rw [List.append_assoc, List.append_assoc]
    exact covered_mutates_then_log _ _ _ hm
  · intro w params out w2 tr h
    unfold ActionExecutor.executeMoveResident at h
    rcases hF : ActionExecutor.findResident w params.residentId params.residentName with _ | resident
    · rw [hF] at h
      exact absurd h (by simp)
    · rw [hF] at h
      dsimp only at h
      rcases hA : ActionExecutor.moveAttempt w resident params with _ | ⟨op, w3⟩
      · rw [hA] at h
        exact absurd h (by simp)
      · rw [hA] at h
        cases op with
        | some newPos =>
          simp only [Prod.mk.injEq] at h
          refine ⟨h.2.2.symm, ?_⟩
          rw [← h.2.2]
          rfl
        | none => exact absurd h (by simp)

/-- Move parameters of the C3 counterexample: known resident, direction
north, default distance. -/
def mvParams : ActionExecutor.MoveParams := ⟨some "r1", none, some "north", none, none⟩

/-- C3 counterexample: a successful move_resident execution mutates the
store and broadcasts `resident_moved` without ever writing an event-log
entry — the broadcast is emitted with no corresponding log commit. -/
theorem C3_counterexample :
    ActionExecutor.isOkB (ActionExecutor.executeMoveResident wMove mvParams).1 = true ∧
    (ActionExecutor.executeMoveResident wMove mvParams).2.2 =
      [Effect.mutate "setResidentPosition", Effect.broadcast "resident_moved"] ∧
    covered (ActionExecutor.executeMoveResident wMove mvParams).2.2 = false := by
  have hF : ActionExecutor.findResident wMove (some "r1") none =
      some ⟨"r1", "Ram", ⟨0, 0, 0⟩, "idle"⟩ := by
    simp [ActionExecutor.findResident, wMove]
  have hA : ActionExecutor.moveAttempt wMove ⟨"r1", "Ram", ⟨0, 0, 0⟩, "idle"⟩ mvParams =
      some (some ⟨0, 0, -3⟩, WorldState.setResidentPosition wMove "r1" 0 0 (-3)) := by
    simp only [ActionExecutor.moveAttempt, mvParams, ActionExecutor.jsOr,
      WorldState.moveResident, WorldState.getResidentPosition, wMove, WorldState.distOr1,
      WorldState.dirVec]
    norm_num [WorldState.getResidentPosition, wMove]
  have hM : ActionExecutor.executeMoveResident wMove mvParams =
      (.ok ("r1", ⟨0, 0, -3⟩), WorldState.setResidentPosition wMove "r1" 0 0 (-3),
       [Effect.mutate "setResidentPosition", Effect.broadcast "resident_moved"]) := by
    unfold ActionExecutor.executeMoveResident
    rw [show ActionExecutor.findResident wMove mvParams.residentId mvParams.residentName =
        some ⟨"r1", "Ram", ⟨0, 0, 0⟩, "idle"⟩ from hF]
    dsimp only
    rw [hA]
  rw [hM]
  exact ⟨rfl, rfl, rfl⟩

/-! ### C9: fallback turns of the ResidentRunner -/

namespace ResidentRunner

theorem mockTurn_movement (soulName : String) (nearby : List NearbyResident) (ts : ℕ)
    (rng : Rng) :
    (mockTurn soulName nearby ts rng).movement =
      if rng 0 > 3 / 10 then
        some { direction := (["north", "south", "east", "west"] : List String).getD
                 (pickIdx (rng 4) 4) "",
               distance := ((⌊rng 5 * 3⌋ : ℤ) : ℚ) + 1 }
      else none := by
  unfold mockTurn
  dsimp only
  split <;> rfl

/-- Well-formedness of a mock movement: absent, or an axis direction with
distance in `[1, 3]`. -/
def mockMovementWellFormed (t : Turn) : Prop :=
  match t.movement with
  | none => True
  | some m =>
    m.direction ∈ (["north", "south", "east", "west"] : List String) ∧
    1 ≤ m.distance ∧ m.distance ≤ 3

end ResidentRunner

/-- C9 (amended): a failed transport and an unparseable response both fall
back to ResidentRunner.mockTurn, so the entity always receives a
well-formed turn outcome and no failure escapes; the fallback policy is
RANDOMIZED (it reads the `Math.random()` stream), not deterministic, and
whenever the stream takes values in `[0,1)` its movement is absent or an
axis direction with distance in `[1,3]`. -/
theorem C9_amended :
    (∀ (decode : String → Option ResidentRunner.TurnJson) (soulName : String)
        (nearby : List ResidentRunner.NearbyResident) (ts : ℕ) (rng : ResidentRunner.Rng)
        (e : String),
        ResidentRunner.liveTurn decode (Except.error e) soulName nearby ts rng =
          ResidentRunner.mockTurn soulName nearby ts rng) ∧
    (∀ (decode : String → Option ResidentRunner.TurnJson) (text soulName : String)
        (nearby : List ResidentRunner.NearbyResident) (ts : ℕ) (rng : ResidentRunner.Rng),
        decode text = none →
        ResidentRunner.liveTurn decode (Except.ok text) soulName nearby ts rng =
          ResidentRunner.mockTurn soulName nearby ts rng) ∧
    (∀ (soulName : String) (nearby : List ResidentRunner.NearbyResident) (ts : ℕ)
        (rng : ResidentRunner.Rng),
        (∀ n, 0 ≤ rng n ∧ rng n < 1) →
        ResidentRunner.mockMovementWellFormed (ResidentRunner.mockTurn soulName nearby ts rng)) := by
  refine ⟨fun _ _ _ _ _ _ => rfl, ?_, ?_⟩
  · intro decode text soulName nearby ts rng hd
    unfold ResidentRunner.liveTurn
    dsimp only
    rw [hd]
  · intro soulName nearby ts rng hr
    unfold ResidentRunner.mockMovementWellFormed
    rw [ResidentRunner.mockTurn_movement]
    by_cases hm : rng 0 > 3 / 10
    · rw [if_pos hm]
      dsimp only
      refine ⟨?_, ?_, ?_⟩
      · have hfl : ⌊rng 4 * ((4 : ℕ) : ℚ)⌋ < 4 := by
          apply Int.floor_lt.2
          push_cast
          nlinarith [(hr 4).1, (hr 4).2]
        have hlt : ResidentRunner.pickIdx (rng 4) 4 < 4 := by
          unfold ResidentRunner.pickIdx
          omega
        set i := ResidentRunner.pickIdx (rng 4) 4 with hi
        interval_cases i <;> simp
      · have h0 : (0 : ℤ) ≤ ⌊rng 5 * 3⌋ := by
          apply Int.le_floor.2
          push_cast
          nlinarith [(hr 5).1]
        have : (0 : ℚ) ≤ ((⌊rng 5 * 3⌋ : ℤ) : ℚ) := by exact_mod_cast h0
        linarith
      · have h2 : ⌊rng 5 * 3⌋ < 3 := by
          apply Int.floor_lt.2
          push_cast
          nlinarith [(hr 5).2]
        have : ((⌊rng 5 * 3⌋ : ℤ) : ℚ) ≤ 2 := by exact_mod_cast Int.lt_add_one_iff.1 h2
        linarith
    · rw [if_neg hm]
      trivial

/-- C9 counterexample: the fallback is not deterministic — with the same
soul, perception and timestamp, two different `Math.random()` streams give
different fallback turns for the same failed DecisionSource call (one
stays still, the other moves east by 2). -/
theorem C9_counterexample :
    ResidentRunner.liveTurn (fun _ => none) (Except.error "timeout") "Tron" [] 0
        (fun _ => 0) ≠
      ResidentRunner.liveTurn (fun _ => none) (Except.error "timeout") "Tron" [] 0
        (fun _ => 1 / 2) := by
  intro h
  have h1 : (ResidentRunner.liveTurn (fun _ => none) (Except.error "timeout") "Tron" [] 0
      (fun _ => (0 : ℚ))).movement = none := by
    show (ResidentRunner.mockTurn "Tron" [] 0 (fun _ => (0 : ℚ))).movement = none
    rw [ResidentRunner.mockTurn_movement]
    norm_num
  have h2 : (ResidentRunner.liveTurn (fun _ => none) (Except.error "timeout") "Tron" [] 0
      (fun _ => (1 / 2 : ℚ))).movement = some ⟨"east", 2⟩ := by
    show (ResidentRunner.mockTurn "Tron" [] 0 (fun _ => (1 / 2 : ℚ))).movement = _
    rw [ResidentRunner.mockTurn_movement]
    rw [if_pos (by norm_num)]
    have hp : ResidentRunner.pickIdx (1 / 2 : ℚ) 4 = 2 := by
      unfold ResidentRunner.pickIdx
      rw [show ⌊(1 / 2 : ℚ) * ((4 : ℕ) : ℚ)⌋ = 2 from by norm_num [Int.floor_eq_iff]]
      rfl
    rw [hp, show ⌊(1 / 2 : ℚ) * 3⌋ = 1 from by norm_num [Int.floor_eq_iff]]
    norm_num
  rw [h, h2] at h1
  exact Option.noConfusion h1

/-! ### C6: incremental gather movement -/

open WorldState SpatialTools in
/-- The per-resident movement executeGather applies: dominant-axis
direction from the path estimate, displacement
`distOr1 (min(path.distance, 5))` — that is, `min(estimatedDistance, 5)`
unless that minimum is 0, in which case the source moves 1 unit. -/
def gatherMove (target : ℚ × ℚ) (r : Resident) : ActionExecutor.MovedEntry :=
  let path := getPath (r.position.x, r.position.z) target
  let d := distOr1 (some (min (path.distance : ℚ) 5))
  ⟨r.id, r.name,
   ⟨r.position.x + (dirVec path.direction).1 * d, r.position.y,
    r.position.z + (dirVec path.direction).2 * d⟩, path.direction⟩

namespace WorldState

theorem moveResident_of_pos (w : World) (id : String) (mv : Movement) (p : Pos)
    (hp : getResidentPosition w id = some p) :
    moveResident w id mv =
      (some ⟨p.x + (dirVec mv.direction).1 * distOr1 mv.distance, p.y,
             p.z + (dirVec mv.direction).2 * distOr1 mv.distance⟩,
       setResidentPosition w id (p.x + (dirVec mv.direction).1 * distOr1 mv.distance) p.y
         (p.z + (dirVec mv.direction).2 * distOr1 mv.distance)) := by
  unfold moveResident
  rw [hp]

theorem find?_pos_map_update (rs : List Resident) (id id' : String) (pos : Pos)
    (hne : id' ≠ id) :
    ((rs.map (fun r => if r.id == id then { r with position := pos } else r)).find?
        (fun r => r.id == id')).map (fun r => r.position) =
      (rs.find? (fun r => r.id == id')).map (fun r => r.position) := by
  induction rs with
  | nil => rfl
  | cons a rest ih =>
    rw [List.map_cons]
    by_cases ha : a.id = id
    · have hu : (if a.id == id then { a with position := pos } else a) =
          { a with position := pos } := by simp [ha]
      rw [hu]
      have h1 : ¬ (({ a with position := pos } : Resident).id == id') = true := by
        simp only [beq_iff_eq, ha]
        exact fun h => hne h.symm
      have h2 : ¬ (a.id == id') = true := by
        simp only [beq_iff_eq, ha]
        exact fun h => hne h.symm
      rw [@List.find?_cons_of_neg Resident (fun r => r.id == id') _ _ h1,
        @List.find?_cons_of_neg Resident (fun r => r.id == id') _ _ h2]
      exact ih
    · have hu : (if a.id == id then { a with position := pos } else a) = a := by simp [ha]
      rw [hu]
      by_cases hp : a.id = id'
      · rw [@List.find?_cons_of_pos Resident (fun r => r.id == id') _ _ (by simp [hp]),
          @List.find?_cons_of_pos Resident (fun r => r.id == id') _ _ (by simp [hp])]
      · rw [@List.find?_cons_of_neg Resident (fun r => r.id == id') _ _ (by simp [hp]),
          @List.find?_cons_of_neg Resident (fun r => r.id == id') _ _ (by simp [hp])]
        exact ih

theorem moveResident_pos_other (w : World) (id : String) (mv : Movement) (id' : String)
    (hne : id' ≠ id) :
    getResidentPosition (moveResident w id mv).2 id' = getResidentPosition w id' := by
  unfold moveResident
  rcases hp : getResidentPosition w id with _ | p
  · rfl
  · dsimp only
    show getResidentPosition (setResidentPosition w id _ _ _) id' = _
    unfold getResidentPosition setResidentPosition
    exact find?_pos_map_update w.residents id id' _ hne

theorem find?_id_self (rs : List Resident) (hnd : (rs.map Resident.id).Nodup)
    (r : Resident) (hr : r ∈ rs) : rs.find? (fun x => x.id == r.id) = some r := by
  induction rs with
  | nil => cases hr
  | cons a rest ih =>
    rw [List.map_cons, List.nodup_cons] at hnd
    rcases List.mem_cons.1 hr with rfl | hr2
    · exact @List.find?_cons_of_pos Resident (fun x => x.id == r.id) _ _ (by simp)
    · have hne : ¬ a.id = r.id := by
        intro he
        exact hnd.1 (he ▸ List.mem_map_of_mem Resident.id hr2)
      rw [@List.find?_cons_of_neg Resident (fun x => x.id == r.id) _ _ (by simp [hne])]
      exact ih hnd.2 hr2

theorem getResidentPosition_self (w : World) (hnd : (w.residents.map Resident.id).Nodup)
    (r : Resident) (hr : r ∈ w.residents) :
    getResidentPosition w r.id = some r.position := by
  unfold getResidentPosition
  rw [find?_id_self w.residents hnd r hr]
  rfl

end WorldState

theorem gather_fold_spec (target : ℚ × ℚ) (rs : List Resident) :
    ∀ (w : World) (ms : List ActionExecutor.MovedEntry) (tr : List Effect),
      (∀ r ∈ rs, WorldState.getResidentPosition w r.id = some r.position) →
      ((rs.map Resident.id).Nodup) →
      (rs.foldl (ActionExecutor.gatherStep target) (w, ms, tr)).2.1 =
        ms ++ rs.map (gatherMove target) := by
  induction rs with
  | nil =>
    intro w ms tr _ _
    simp
  | cons r rest ih =>
    intro w ms tr hpos hnd
    rw [List.map_cons, List.nodup_cons] at hnd
    have hp := hpos r (List.mem_cons_self _ _)
    rw [List.foldl_cons]
    rw [show ActionExecutor.gatherStep target (w, ms, tr) r =
        ((WorldState.moveResident w r.id
            ⟨(SpatialTools.getPath (r.position.x, r.position.z) target).direction,
             some (min ((SpatialTools.getPath (r.position.x, r.position.z) target).distance : ℚ)
               5)⟩).2,
         ms ++ [gatherMove target r], tr ++ [Effect.mutate "setResidentPosition"]) from by
      unfold ActionExecutor.gatherStep
      dsimp only
      rw [WorldState.moveResident_of_pos w r.id _ r.position hp]
      rfl]
    rw [ih _ _ _ ?_ hnd.2]
    · rw [List.map_cons, List.append_assoc]
      rfl
    · intro r2 hr2
      have hne : r2.id ≠ r.id := by
        intro he
        exact hnd.1 (he ▸ List.mem_map_of_mem Resident.id hr2)
      rw [WorldState.moveResident_pos_other w r.id _ r2.id hne]
      exact hpos r2 (List.mem_cons_of_mem _ hr2)

theorem roundSqrt_ge_five (s : ℚ) (hs : 25 < s) : 5 ≤ SpatialTools.roundSqrt s := by
  unfold SpatialTools.roundSqrt
  have h100 : (100 : ℤ) ≤ ⌊4 * s⌋ := Int.le_floor.2 (by push_cast; linarith)
  have ht : 100 ≤ (⌊4 * s⌋).toNat := by omega
  have hsq : 10 ≤ Nat.sqrt (⌊4 * s⌋).toNat := Nat.le_sqrt.2 (by omega)
  omega

open SpatialTools WorldState in
theorem gatherMove_far_ne (target : ℚ × ℚ) (r : Resident)
    (hfar : distSq r.position.x r.position.z target.1 target.2 > 25) :
    ((gatherMove target r).newPosition.x, (gatherMove target r).newPosition.z) ≠ target := by
  have hs : (target.1 - r.position.x) ^ 2 + (target.2 - r.position.z) ^ 2 =
      distSq r.position.x r.position.z target.1 target.2 := by
    unfold distSq
    ring
  have h5 : 5 ≤ ((getPath (r.position.x, r.position.z) target).distance : ℚ) := by
    have := roundSqrt_ge_five _ (hs ▸ hfar)
    unfold getPath
    exact_mod_cast this
  have hd5 : min ((getPath (r.position.x, r.position.z) target).distance : ℚ) 5 = 5 :=
    min_eq_right h5
  have hD : distOr1 (some (min ((getPath (r.position.x, r.position.z) target).distance : ℚ) 5)) =
      5 := by
    rw [hd5]
    norm_num [distOr1]
  unfold gatherMove
  dsimp only
  rw [hD]
  unfold distSq at hfar
  unfold getPath
  dsimp only
  split_ifs with h1 h2 h3
  · rw [show dirVec "east" = (1, 0) from rfl]
    intro heq
    rw [Prod.mk.injEq] at heq
    obtain ⟨hx, hz⟩ := heq
    dsimp only at hx hz
    nlinarith [hfar, hx, hz]
  · rw [show dirVec "west" = (-1, 0) from rfl]
    intro heq
    rw [Prod.mk.injEq] at heq
    obtain ⟨hx, hz⟩ := heq
    dsimp only at hx hz
    nlinarith [hfar, hx, hz]
  · rw [show dirVec "south" = (0, 1) from rfl]
    intro heq
    rw [Prod.mk.injEq] at heq
    obtain ⟨hx, hz⟩ := heq
    dsimp only at hx hz
    nlinarith [hfar, hx, hz]
  · rw [show dirVec "north" = (0, -1) from rfl]
    intro heq
    rw [Prod.mk.injEq] at heq
    obtain ⟨hx, hz⟩ := heq
    dsimp only at hx hz
    nlinarith [hfar, hx, hz]

/-- C6 (amended): executeGather moves EVERY resident (for a store with
distinct resident ids) exactly as gatherMove prescribes — by
`min(estimatedDistance, 5)` units in the dominant-axis direction when that
minimum is nonzero, and by 1 unit when the estimate rounds to 0 (the
source treats the falsy distance 0 as 1, so close residents can overshoot
the target, see the counterexample) — and a resident farther than 5 units
(squared distance above 25) never lands on the target in one call: the
gather is incremental. -/
theorem C6_amended (w : World) (p : ActionExecutor.GatherParams)
    (hids : (w.residents.map Resident.id).Nodup) :
    (ActionExecutor.executeGather w p).1.movements =
      w.residents.map (gatherMove (ActionExecutor.gatherTarget w p)) ∧
    ∀ r ∈ w.residents,
      SpatialTools.distSq r.position.x r.position.z (ActionExecutor.gatherTarget w p).1
          (ActionExecutor.gatherTarget w p).2 > 25 →
      ((gatherMove (ActionExecutor.gatherTarget w p) r).newPosition.x,
       (gatherMove (ActionExecutor.gatherTarget w p) r).newPosition.z) ≠
        ActionExecutor.gatherTarget w p := by
  constructor
  · unfold ActionExecutor.executeGather
    dsimp only
    rw [gather_fold_spec (ActionExecutor.gatherTarget w p) w.residents w [] []
      (fun r hr => WorldState.getResidentPosition_self w hids r hr) hids]
    rfl
  · intro r hr hfar
    exact gatherMove_far_ne _ r hfar

/-- One-resident world of gather scenario 4: the resident sits at
`(20, 0, 20)`. -/
def wGather : World := ⟨[⟨"r1", "Tron", ⟨20, 0, 20⟩, "idle"⟩], [], []⟩

/-- Gather parameters `{near: {x:0, z:0}}`. -/
def pGather : ActionExecutor.GatherParams := ⟨none, some (ActionExecutor.NearArg.pt (0, 0))⟩

/-- C6 witness: the amended gather theorem instanced on the scenario-4
world (one resident at `(20,0,20)` gathered toward the origin). -/
theorem C6_witness :
    (ActionExecutor.executeGather wGather pGather).1.movements =
      wGather.residents.map (gatherMove (ActionExecutor.gatherTarget wGather pGather)) ∧
    ∀ r ∈ wGather.residents,
      SpatialTools.distSq r.position.x r.position.z
          (ActionExecutor.gatherTarget wGather pGather).1
          (ActionExecutor.gatherTarget wGather pGather).2 > 25 →
      ((gatherMove (ActionExecutor.gatherTarget wGather pGather) r).newPosition.x,
       (gatherMove (ActionExecutor.gatherTarget wGather pGather) r).newPosition.z) ≠
        ActionExecutor.gatherTarget wGather pGather :=
  C6_amended wGather pGather (by simp [wGather])

/-- One-resident world with the resident 0.4 units from the target. -/
def wCex6 : World := ⟨[⟨"r1", "Quorra", ⟨2 / 5, 0, 0⟩, "idle"⟩], [], []⟩

/-- Gather parameters of the C6 counterexample. -/
def pCex6 : ActionExecutor.GatherParams := ⟨none, some (ActionExecutor.NearArg.pt (0, 0))⟩

/-- C6 counterexample: a resident at `(2/5, 0, 0)` gathered toward the
origin has estimated distance 0, so `min(estimatedDistance, 5) = 0`; the
claim then requires no movement, but the source moves the resident one
full unit west to `(-3/5, 0, 0)`, overshooting the target (the x
coordinate crosses from positive to negative). -/
theorem C6_counterexample :
    (ActionExecutor.executeGather wCex6 pCex6).1.movements =
      [⟨"r1", "Quorra", ⟨-(3 / 5), 0, 0⟩, "west"⟩] ∧
    min ((SpatialTools.getPath (2 / 5, 0) (0, 0)).distance : ℚ) 5 = 0 ∧
    (2 / 5 : ℚ) > 0 ∧ (-(3 / 5) : ℚ) < 0 := by
  have htarget : ActionExecutor.gatherTarget wCex6 pCex6 = (0, 0) := rfl
  have hpath : SpatialTools.getPath (2 / 5, 0) (0, 0) = ⟨"west", 0⟩ := by
    unfold SpatialTools.getPath SpatialTools.roundSqrt
    simp only [SpatialTools.PathInfo.mk.injEq]
    constructor
    · norm_num
    · rw [show ⌊(4 : ℚ) * (((0 : ℚ) - 2 / 5) ^ 2 + ((0 : ℚ) - 0) ^ 2)⌋ = 0 from by
        norm_num [Int.floor_eq_iff]]
      simp [Nat.sqrt]
  have hmove : gatherMove (0, 0) (⟨"r1", "Quorra", ⟨2 / 5, 0, 0⟩, "idle"⟩ : Resident) =
      ⟨"r1", "Quorra", ⟨-(3 / 5), 0, 0⟩, "west"⟩ := by
    unfold gatherMove
    dsimp only
    rw [hpath, show WorldState.dirVec "west" = (-1, 0) from rfl]
    norm_num [WorldState.distOr1]
  refine ⟨?_, ?_, by norm_num, by norm_num⟩
  · unfold ActionExecutor.executeGather
    dsimp only
    rw [htarget, gather_fold_spec (0, 0) wCex6.residents wCex6 [] []
      (fun r hr => WorldState.getResidentPosition_self wCex6 (by simp [wCex6]) r hr)
      (by simp [wCex6])]
    show ([] : List ActionExecutor.MovedEntry) ++ [gatherMove (0, 0) _] = _
    rw [List.nil_append, hmove]
  · rw [hpath]
    norm_num

/-! ### C2: bounded per-entity memory -/

namespace WorldState

theorem sortTsDesc_sorted (l : List Memory) : List.Sorted tsDesc (sortTsDesc l) :=
  List.sorted_insertionSort tsDesc l

theorem sortTsDesc_perm (l : List Memory) : (sortTsDesc l).Perm l :=
  List.perm_insertionSort tsDesc l

theorem mem_le_maxIdx (l : List Memory) (m : Memory) (hm : m ∈ l) :
    m.memory_index ≤ maxIdx l := by
  induction l with
  | nil => cases hm
  | cons a rest ih =>
    rcases List.mem_cons.1 hm with rfl | h2
    · show m.memory_index ≤ max m.memory_index (maxIdx rest)
      exact le_max_left _ _
    · calc m.memory_index ≤ maxIdx rest := ih h2
        _ ≤ max a.memory_index (maxIdx rest) := le_max_right _ _

/-- Invariant tying the stored per-resident table to the list of all rows
ever inserted: the table holds `min(total, 100)` rows, every stored row
was inserted, as long as at most 100 rows were inserted the table is all
of them, and every inserted row not retained is at most as recent as every
retained row. -/
def MemInv (st added : List Memory) : Prop :=
  st.length = min added.length 100 ∧
  (∀ x ∈ st, x ∈ added) ∧
  (added.length ≤ 100 → st.Perm added) ∧
  (∀ y ∈ added, y ∉ st → ∀ x ∈ st, y.timestamp ≤ x.timestamp)

theorem memInv_step (st added : List Memory) (c : MemCall) (h : MemInv st added) :
    MemInv (addMemory st c.text c.importance c.ts)
      (added ++ [⟨maxIdx st + 1, c.text, c.importance, c.ts⟩]) := by
  obtain ⟨hlen, hmem, hsmall, hts⟩ := h
  set m : Memory := ⟨maxIdx st + 1, c.text, c.importance, c.ts⟩ with hmdef
  have hadd : addMemory st c.text c.importance c.ts = (sortTsDesc (st ++ [m])).take 100 := rfl
  have hm_not_st : m ∉ st := by
    intro hmm
    have := mem_le_maxIdx st m hmm
    rw [show m.memory_index = maxIdx st + 1 from rfl] at this
    omega
  have hsperm : (sortTsDesc (st ++ [m])).Perm (st ++ [m]) := sortTsDesc_perm _
  have hslen : (sortTsDesc (st ++ [m])).length = st.length + 1 := by
    rw [hsperm.length_eq, List.length_append, List.length_singleton]
  have hsorted := sortTsDesc_sorted (st ++ [m])
  rw [← List.take_append_drop 100 (sortTsDesc (st ++ [m]))] at hsorted
  have hPW := (List.pairwise_append.1 hsorted).2.2
  have hmemtake : ∀ x ∈ (sortTsDesc (st ++ [m])).take 100, x ∈ st ++ [m] :=
    fun x hx => hsperm.mem_iff.1 (List.mem_of_mem_take hx)
  have hcase_pool : ∀ y ∈ st ++ [m], y ∉ (sortTsDesc (st ++ [m])).take 100 →
      ∀ x ∈ (sortTsDesc (st ++ [m])).take 100, y.timestamp ≤ x.timestamp := by
    intro y hy hyn x hx
    have hy2 : y ∈ sortTsDesc (st ++ [m]) := hsperm.mem_iff.2 hy
    rw [← List.take_append_drop 100 (sortTsDesc (st ++ [m]))] at hy2
    rcases List.mem_append.1 hy2 with h1 | h2
    · exact absurd h1 hyn
    · exact hPW x hx y h2
  rw [hadd]
  refine ⟨?_, ?_, ?_, ?_⟩
  · rw [List.length_take, hslen, List.length_append, List.length_singleton]
    omega
  · intro x hx
    rcases List.mem_append.1 (hmemtake x hx) with h1 | h2
    · exact List.mem_append_left _ (hmem x h1)
    · exact List.mem_append_right _ h2
  · intro hlen2
    rw [List.length_append, List.length_singleton] at hlen2
    have hstadded : st.Perm added := hsmall (by omega)
    have htk : (sortTsDesc (st ++ [m])).take 100 = sortTsDesc (st ++ [m]) :=
      List.take_of_length_le (by omega)
    rw [htk]
    exact hsperm.trans (hstadded.append_right [m])
  · intro y hy hyn x hx
    rcases List.mem_append.1 hy with hyadded | hym
    · by_cases hyst : y ∈ st
      · exact hcase_pool y (List.mem_append_left _ hyst) hyn x hx
      · have hyts := hts y hyadded hyst
        rcases List.mem_append.1 (hmemtake x hx) with hxst | hxm
        · exact hyts x hxst
        · rw [List.mem_singleton] at hxm
          subst hxm
          by_cases hsz : added.length ≤ 100
          · exact absurd ((hsmall hsz).mem_iff.2 hyadded) hyst
          · have hst100 : st.length = 100 := by omega
            have hdlen : ((sortTsDesc (st ++ [m])).drop 100).length = 1 := by
              rw [List.length_drop, hslen, hst100]
            have hcount : List.count m (st ++ [m]) = 1 := by
              rw [List.count_append, List.count_eq_zero.2 hm_not_st, List.count_singleton]
              simp
            have hcount2 : List.count m (sortTsDesc (st ++ [m])) = 1 :=
              (hsperm.count_eq m).trans hcount
            rw [← List.take_append_drop 100 (sortTsDesc (st ++ [m])), List.count_append]
              at hcount2
            have hxtake : 0 < List.count m ((sortTsDesc (st ++ [m])).take 100) :=
              List.count_pos_iff.2 hx
            have hxdrop : m ∉ (sortTsDesc (st ++ [m])).drop 100 :=
              List.count_eq_zero.1 (by omega)
            rcases hD : (sortTsDesc (st ++ [m])).drop 100 with _ | ⟨d, rest2⟩
            · rw [hD] at hdlen
              simp at hdlen
            · have hrest2 : rest2 = [] := by
                rw [hD] at hdlen
                simpa using hdlen
              subst hrest2
              have hdD : d ∈ (sortTsDesc (st ++ [m])).drop 100 := by
                rw [hD]
                exact List.mem_singleton.2 rfl
              have hdne : d ≠ m := by
                intro he
                exact hxdrop (he ▸ hdD)
              have hd_st : d ∈ st := by
                have hdpool : d ∈ st ++ [m] := hsperm.mem_iff.1 (List.mem_of_mem_drop hdD)
                rcases List.mem_append.1 hdpool with h1 | h2
                · exact h1
                · rw [List.mem_singleton] at h2
                  exact absurd h2 hdne
              calc y.timestamp ≤ d.timestamp := hts y hyadded hyst d hd_st
                _ ≤ m.timestamp := hPW m hx d hdD
    · rw [List.mem_singleton] at hym
      subst hym
      exact hcase_pool m (List.mem_append_right _ (List.mem_singleton.2 rfl)) hyn x hx

theorem runMemory_inv (calls : List MemCall) :
    ∀ (st added : List Memory), MemInv st added →
      MemInv (calls.foldl memStep (st, added)).1 (calls.foldl memStep (st, added)).2 := by
  induction calls with
  | nil => intro st added h; exact h
  | cons c rest ih =>
    intro st added h
    rw [List.foldl_cons]
    exact ih _ _ (memInv_step st added c h)

end WorldState

open WorldState in
/-- C2: after any finite sequence of addMemory calls for one resident the
stored memory count is `min(total inserted, 100)` and never exceeds 100;
every row not retained is no more recent (by timestamp) than every
retained row — the table keeps the 100 most recent rows by timestamp —
and recentMemories (getMemories) returns at most `min(n, 100)` rows, in
timestamp-descending order. -/
theorem C2_memory_bounded (calls : List MemCall) (n : ℕ) :
    (runMemory calls).1.length ≤ 100 ∧
    (runMemory calls).1.length = min (runMemory calls).2.length 100 ∧
    (∀ x ∈ (runMemory calls).1, x ∈ (runMemory calls).2) ∧
    (∀ y ∈ (runMemory calls).2, y ∉ (runMemory calls).1 →
      ∀ x ∈ (runMemory calls).1, y.timestamp ≤ x.timestamp) ∧
    (getMemories (runMemory calls).1 n).length ≤ 100 ∧
    (getMemories (runMemory calls).1 n).length ≤ n ∧
    List.Sorted tsDesc (getMemories (runMemory calls).1 n) := by
  have hbase : MemInv [] [] := ⟨by simp, by simp, fun _ => List.Perm.refl [], by simp⟩
  have hinv := runMemory_inv calls [] [] hbase
  obtain ⟨h1, h2, h3, h4⟩ := hinv
  simp only [runMemory]
  refine ⟨by omega, h1, h2, h4, ?_, ?_, ?_⟩
  · rw [getMemories, List.length_take, (sortTsDesc_perm _).length_eq]
    omega
  · rw [getMemories, List.length_take]
    omega
  · exact List.Pairwise.sublist (List.take_sublist _ _) (sortTsDesc_sorted _)

end TheGrid
